import Mathlib

/-!
Verification of the ditteau_data_tools repository: a shallow embedding of the
record-recovery engine (`fix_unl` in `src/pipe2s3.py`) and of the cross-source
validator (`validate_table` in `src/validate_archive.py`), together with
theorems settling the specification's claims about them.

The recovery engine works on raw text; we model the file content as a
`List Char` (the source reads the file with a single-byte latin-1 encoding, so
characters and bytes coincide).  The validator's external collaborators
(Informix queries, S3 download, Parquet reads) are modelled by passing their
results in as an explicit input structure; `validate_table` itself is the pure
classification logic of the source.
-/

set_option autoImplicit false

/-! ### Characters used by the recovery engine (src/pipe2s3.py lines 117-127) -/

/-- The backslash character, Informix's escape character. -/
def bsC : Char := '\\'

/-- The pipe character, the field delimiter of the unload format. -/
def pipeC : Char := '|'

/-- The newline character, the physical line terminator. -/
def nlC : Char := '\n'

/-- The NUL byte `'\x00'`: the private sentinel protecting escaped backslashes
(step 1 of `fix_unl`). -/
def nulC : Char := Char.ofNat 0

/-- The byte `'\xA6'` (broken bar): the private placeholder substituted for an
escaped pipe (step 2 of `fix_unl`). -/
def pipeSub : Char := Char.ofNat 0xA6

/-! ### Escape normalization (src/pipe2s3.py lines 117-127)

Python's `str.replace(old, new)` scans left to right replacing non-overlapping
occurrences.  All three patterns replaced by `fix_unl` are two characters long
and are replaced by a single character, so we embed the scan as `esc2 a b r`:
replace every (leftmost, non-overlapping) occurrence of the two-character
pattern `[a, b]` by the single character `r`. -/

/-- Left-to-right non-overlapping replacement of the two-character pattern
`[a, b]` by the single character `r`, exactly as Python's `str.replace` does
for a two-character pattern. -/
def esc2 (a b r : Char) : List Char → List Char
  | [] => []
  | [c] => [c]
  | c :: d :: rest =>
    if c = a ∧ d = b then r :: esc2 a b r rest
    else c :: esc2 a b r (d :: rest)

/-- Steps 1-4 of `fix_unl` (src/pipe2s3.py lines 117-127): protect doubled
backslashes behind the NUL sentinel, replace escaped pipes by the `'\xA6'`
placeholder, replace backslash-newline continuations by a single space, and
finally restore the sentinel to a literal backslash. -/
def fixEscapes (content : List Char) : List Char :=
  (esc2 bsC nlC ' ' (esc2 bsC pipeC pipeSub (esc2 bsC bsC nulC content))).map
    (fun c => if c = nulC then bsC else c)

/-! ### Line handling (src/pipe2s3.py lines 129-135) -/

/-- `content.split('\n')` on a character list: Python semantics, so the empty
list yields one empty line and a trailing newline yields a final empty line. -/
def splitNl : List Char → List (List Char)
  | [] => [[]]
  | c :: rest =>
    if c = nlC then [] :: splitNl rest
    else
      match splitNl rest with
      | [] => [[c]]
      | l :: ls => (c :: l) :: ls

/-- Strip exactly one trailing pipe from a line if present
(src/pipe2s3.py lines 131-135). -/
def stripTrail (l : List Char) : List Char :=
  if l.getLast? = some pipeC then l.dropLast else l

/-! ### Row reassembly by column-count oracle (src/pipe2s3.py lines 137-172) -/

/-- One iteration of the reassembly loop of `fix_unl` (src/pipe2s3.py lines
143-168).  The state is the pair `(reassembled, current)`: the rows emitted so
far and the accumulator.  Empty lines are skipped; otherwise the candidate is
the accumulator joined to the line with one space (or the line alone), and its
delimiter count plus one is compared against the expected column count. -/
def reasmStep (expected : Nat) (st : List (List Char) × List Char)
    (line : List Char) : List (List Char) × List Char :=
  if line = [] then st
  else
    let candidate := if st.2 = [] then line else st.2 ++ ' ' :: line
    if candidate.count pipeC + 1 = expected then (st.1 ++ [candidate], [])
    else if candidate.count pipeC + 1 < expected then (st.1, candidate)
    else
      let acc1 := if st.2 = [] then st.1 else st.1 ++ [st.2]
      if line.count pipeC + 1 = expected then (acc1 ++ [line], [])
      else (acc1, line)

/-- The full reassembly loop followed by the final flush of a leftover
accumulator (src/pipe2s3.py lines 140-172). -/
def reassemble (expected : Nat) (ls : List (List Char)) : List (List Char) :=
  let st := ls.foldl (reasmStep expected) ([], [])
  if st.2 = [] then st.1 else st.1 ++ [st.2]

/-- Step 7 of `fix_unl` (src/pipe2s3.py lines 174-180): pad a short row with
trailing pipes until its field count reaches `expected`; leave other rows
untouched. -/
def padRow (expected : Nat) (row : List Char) : List Char :=
  if row.count pipeC + 1 < expected then
    row ++ List.replicate (expected - (row.count pipeC + 1)) pipeC
  else row

/-- The list of records produced by `fix_unl` before the final newline-join
(src/pipe2s3.py lines 102-180). -/
def fixUnlRecords (content : List Char) (expected : Nat) : List (List Char) :=
  (reassemble expected ((splitNl (fixEscapes content)).map stripTrail)).map
    (padRow expected)

/-- `'\n'.join(final)` on character lists. -/
def joinNl (rows : List (List Char)) : List Char :=
  List.intercalate [nlC] rows

/-- The recovery engine `fix_unl` of src/pipe2s3.py (lines 102-182), as a
function from the raw file content and the expected column count to the
repaired text: the newline-join of the repaired records plus a final
newline. -/
def fix_unl (content : List Char) (expected : Nat) : List Char :=
  joinNl (fixUnlRecords content expected) ++ [nlC]

/-! ### Fields of a record -/

/-- Splitting a record on the pipe delimiter (Python `row.split('|')`). -/
def splitPipe : List Char → List (List Char)
  | [] => [[]]
  | c :: rest =>
    if c = pipeC then [] :: splitPipe rest
    else
      match splitPipe rest with
      | [] => [[c]]
      | l :: ls => (c :: l) :: ls

/-- The field count of a record as `fix_unl` measures it:
`row.count('|') + 1` (src/pipe2s3.py lines 152, 166, 177). -/
def fieldCount (row : List Char) : Nat := row.count pipeC + 1

/-! ### The legacy exporter's escaping convention

The Informix UNLOAD tool that produces the raw stream is an external
collaborator (out of scope in the spec, §6).  For the escape round-trip claim
we model its escaping of one field value, following the convention stated by
the spec (§4.1 step 1) and by the `fix_unl` docstring: a literal backslash is
written as a doubled backslash, a literal pipe as backslash-pipe. -/

/-- The legacy exporter's escaping of a field value: double each backslash,
escape each pipe with a backslash. -/
def escField : List Char → List Char
  | [] => []
  | c :: rest =>
    if c = bsC then bsC :: bsC :: escField rest
    else if c = pipeC then bsC :: pipeC :: escField rest
    else c :: escField rest

/-- What one escaped character expands to after step 1 of `fix_unl`
(doubled backslash collapsed to the NUL sentinel). -/
def st1c (c : Char) : List Char :=
  if c = bsC then [nulC] else if c = pipeC then [bsC, pipeC] else [c]

/-- What one original character becomes after steps 1-2 of `fix_unl`:
backslash to sentinel, pipe to placeholder, else unchanged. -/
def protc (c : Char) : Char :=
  if c = bsC then nulC else if c = pipeC then pipeSub else c

/-- What one original character becomes in the final output of the escape
phase: a literal pipe turns into the `'\xA6'` placeholder, everything else is
unchanged. -/
def subPipe (c : Char) : Char := if c = pipeC then pipeSub else c

/-! ### The cross-source validator (src/validate_archive.py lines 231-355)

The external collaborators of `validate_table` (dbaccess queries, the S3
download, the Parquet reads) are modelled by handing their results to the
function as an explicit input record; `None` results are `Option.none`.  First
row values are the already-stringified non-null values (the source applies
`str` to each non-`None` value). -/

/-- The inputs `validate_table` obtains from its collaborators. -/
structure VInput where
  table : String
  /-- whether `download_parquet` succeeded (src line 250). -/
  parqAvailable : Bool
  /-- `get_informix_count` result (src lines 106-114): `none` when no line of
  the dbaccess output is a digit string. -/
  informixCount : Option Nat
  /-- `get_parquet_row_count` result. -/
  parquetCount : Option Nat
  /-- `get_columns` result: ordered Informix column names. -/
  informixCols : List String
  /-- `get_parquet_columns` result: ordered Parquet column names. -/
  parquetCols : List String
  /-- the `--summary-only` flag (skips the first-row spot check). -/
  summaryOnly : Bool
  /-- `get_parquet_first_row` result: `none` for an empty table, otherwise the
  name-to-value mapping with `none` for SQL nulls and values stringified. -/
  parqFirst : Option (List (String × Option String))
  /-- `get_parquet_null_counts` result: per-column null counts. -/
  nullCounts : List (String × Nat)

/-- The `results` dictionary built by `validate_table`
(src/validate_archive.py lines 233-247). -/
structure VResult where
  table : String
  rowCountInformix : Option Nat
  rowCountParquet : Option Nat
  rowCountMatch : Bool
  colCountInformix : Option Nat
  colCountParquet : Option Nat
  colCountMatch : Bool
  colNamesMatch : Bool
  colNameMismatches : List String
  firstRowCheck : String
  nullColumns : List String
  status : String
  errors : List String

/-- `results["row_count_match"]` (src lines 264-268): both counts present and
equal. -/
def rowCountMatchB : Option Nat → Option Nat → Bool
  | some a, some b => a == b
  | _, _ => false

/-- Python truthiness of an optional count: present and nonzero. -/
def truthyN : Option Nat → Bool
  | some n => !(n == 0)
  | none => false

/-- `"{:+d}"` formatting of the signed row-count difference. -/
def fmtSigned (d : Int) : String :=
  if d < 0 then toString d else "+" ++ toString d

/-- The row-count mismatch error string (src lines 271-276). -/
def rowMsg (a b : Nat) : String :=
  "Row count mismatch: Informix=" ++ toString a ++ ", Parquet=" ++ toString b
    ++ " (diff=" ++ fmtSigned ((b : Int) - (a : Int)) ++ ")"

/-- The error strings contributed by the row-count check (src lines 270-276):
the signed-difference message is recorded only when the counts do not match
and both are truthy (present and nonzero). -/
def rowCountErrors (ic pc : Option Nat) : List String :=
  match ic, pc with
  | some a, some b => if a != b && a != 0 && b != 0 then [rowMsg a b] else []
  | _, _ => []

/-- `results["col_names_match"]` (src lines 289-291): true exactly when both
name lists are nonempty and equal. -/
def colNamesMatchB (ic pc : List String) : Bool :=
  !ic.isEmpty && !pc.isEmpty && ic == pc

/-- The per-index column-name mismatch strings (src lines 293-301), computed
only when both name lists are nonempty and differ. -/
def colNameMismatchList (ic pc : List String) : List String :=
  if !ic.isEmpty && !pc.isEmpty && ic != pc then
    (List.range (max ic.length pc.length)).filterMap (fun idx =>
      let a := ic.getD idx "<MISSING>"
      let b := pc.getD idx "<MISSING>"
      if a ≠ b then
        some ("Col " ++ toString (idx + 1) ++ ": Informix='" ++ a
          ++ "' vs Parquet='" ++ b ++ "'")
      else none)
  else []

/-- The first-row check failure string (src line 315). -/
def firstRowFailMsg : String := "FAIL — first row appears to be column headers!"

/-- The size of `set(informix_cols) & set(first_values)` (src lines 310-312):
the number of distinct source column names that occur among the stringified
non-null first-row values. -/
def overlapCount (cols : List String) (vals : List String) : Nat :=
  (cols.dedup.filter (fun c => vals.contains c)).length

/-- `results["first_row_check"]` (src lines 243, 305-320).  The source flags
the header-shift failure when `len(overlap) > len(informix_cols) * 0.5`; since
`len(informix_cols) * 0.5` is exactly representable, this is the exact rational
comparison `2 * overlap > len(informix_cols)`. -/
def firstRowCheckStr (summaryOnly : Bool) (cols : List String)
    (pf : Option (List (String × Option String))) : String :=
  if summaryOnly then "SKIPPED"
  else
    match pf with
    | none => "EMPTY TABLE"
    | some row =>
      if row.isEmpty then "EMPTY TABLE"
      else if 2 * overlapCount cols (row.filterMap Prod.snd) > cols.length then
        firstRowFailMsg
      else "OK"

/-- The error string contributed by a flagged first-row check (src line 316). -/
def firstRowErrors (frc : String) : List String :=
  if frc == firstRowFailMsg then
    ["First row looks like column names — data may be shifted"]
  else []

/-- `results["null_columns"]` (src lines 324-328): computed only when the
null-count report is nonempty and the Parquet row count is truthy (present and
nonzero); a column is listed when its null count equals the row count. -/
def nullColumnList (ncs : List (String × Nat)) (pc : Option Nat) : List String :=
  match pc with
  | some n =>
    if !ncs.isEmpty && !(n == 0) then
      (ncs.filter (fun p => p.2 == n)).map Prod.fst
    else []
  | none => []

/-- The overall status classification (src lines 330-344), first match wins. -/
def classify (rowM colM nameM : Bool) (frc : String) : String :=
  if rowM && colM && nameM then
    if frc == "OK" || frc == "SKIPPED" || frc == "EMPTY TABLE" then "OK"
    else "WARNING"
  else if !rowM then "ROW MISMATCH"
  else if !colM then "COL MISMATCH"
  else if !nameM then "NAME MISMATCH"
  else "WARNING"

/-- `validate_table` of src/validate_archive.py (lines 231-355): when the
Parquet download fails the early-return result with status `"NO PARQUET"` is
produced (lines 250-254); otherwise the five checks run and the result is
classified. -/
def validate_table (i : VInput) : VResult :=
  if i.parqAvailable then
    { table := i.table
      rowCountInformix := i.informixCount
      rowCountParquet := i.parquetCount
      rowCountMatch := rowCountMatchB i.informixCount i.parquetCount
      colCountInformix := some i.informixCols.length
      colCountParquet := some i.parquetCols.length
      colCountMatch := i.informixCols.length == i.parquetCols.length
      colNamesMatch := colNamesMatchB i.informixCols i.parquetCols
      colNameMismatches := colNameMismatchList i.informixCols i.parquetCols
      firstRowCheck := firstRowCheckStr i.summaryOnly i.informixCols i.parqFirst
      nullColumns := nullColumnList i.nullCounts i.parquetCount
      status := classify (rowCountMatchB i.informixCount i.parquetCount)
        (i.informixCols.length == i.parquetCols.length)
        (colNamesMatchB i.informixCols i.parquetCols)
        (firstRowCheckStr i.summaryOnly i.informixCols i.parqFirst)
      errors := rowCountErrors i.informixCount i.parquetCount ++
        firstRowErrors (firstRowCheckStr i.summaryOnly i.informixCols i.parqFirst) }
  else
    { table := i.table
      rowCountInformix := none
      rowCountParquet := none
      rowCountMatch := false
      colCountInformix := none
      colCountParquet := none
      colCountMatch := false
      colNamesMatch := false
      colNameMismatches := []
      firstRowCheck := "SKIPPED"
      nullColumns := []
      status := "NO PARQUET"
      errors := ["Could not download Parquet file from S3"] }

/-! ## Theorems: cross-source validator claims -/

/-- C7: when the archive artifact is missing or unreadable (`download_parquet`
returned no path), `validate_table` does not raise: it is a total function
returning a classified result whose status is the archive-missing status
(literal string `"NO PARQUET"` in the source; the spec names this status
`NO ARCHIVE`, calling the Parquet artifact "the archive" throughout), with an
error string recorded, so the batch report stays complete. -/
theorem validate_no_archive (i : VInput) (h : i.parqAvailable = false) :
    (validate_table i).status = "NO PARQUET" ∧
    "Could not download Parquet file from S3" ∈ (validate_table i).errors ∧
    (validate_table i).table = i.table := by
  simp [validate_table, h]

def w7 : VInput :=
  { table := "t1", parqAvailable := false, informixCount := none,
    parquetCount := none, informixCols := [], parquetCols := [],
    summaryOnly := false, parqFirst := none, nullCounts := [] }

/-- C7 witness: a concrete unavailable archive is classified, not a crash. -/
theorem validate_no_archive_witness :
    (validate_table w7).status = "NO PARQUET" ∧
    "Could not download Parquet file from S3" ∈ (validate_table w7).errors ∧
    (validate_table w7).table = w7.table :=
  validate_no_archive w7 rfl

/-- C5 (amended): when both row counts are known (`some`) and differ, the
status is `"ROW MISMATCH"`; the signed-difference error string
(archive minus source, `"{:+d}"`-formatted) is recorded when, in addition,
both counts are nonzero — the source guards the message with Python
truthiness (`informix_count and parquet_count`), so a known zero count
suppresses the message (see the counterexample). -/
theorem row_mismatch_status (i : VInput) (a b : Nat) (hA : i.parqAvailable = true)
    (hi : i.informixCount = some a) (hp : i.parquetCount = some b) (hab : a ≠ b) :
    (validate_table i).rowCountMatch = false ∧
    (validate_table i).status = "ROW MISMATCH" ∧
    (0 < a → 0 < b → rowMsg a b ∈ (validate_table i).errors) := by
  have hm : rowCountMatchB i.informixCount i.parquetCount = false := by
    rw [hi, hp]; simp [rowCountMatchB, hab]
  refine ⟨?_, ?_, ?_⟩
  · simp [validate_table, hA, hm]
  · simp [validate_table, hA, hm, classify]
  · intro ha hb
    have h2 : a ≠ 0 := Nat.pos_iff_ne_zero.mp ha
    have h3 : b ≠ 0 := Nat.pos_iff_ne_zero.mp hb
    simp [validate_table, hA, rowCountErrors, hi, hp, hab, h2, h3]

def w5 : VInput :=
  { table := "t", parqAvailable := true, informixCount := some 1000,
    parquetCount := some 950, informixCols := [], parquetCols := [],
    summaryOnly := true, parqFirst := none, nullCounts := [] }

/-- C5 witness: archive row count 950 against source row count 1000 yields
status `"ROW MISMATCH"` and the recorded difference is `-50`. -/
theorem row_mismatch_status_witness :
    (validate_table w5).status = "ROW MISMATCH" ∧
    rowMsg 1000 950 ∈ (validate_table w5).errors ∧
    rowMsg 1000 950
      = "Row count mismatch: Informix=1000, Parquet=950 (diff=-50)" :=
  ⟨(row_mismatch_status w5 1000 950 rfl rfl rfl (by decide)).2.1,
   (row_mismatch_status w5 1000 950 rfl rfl rfl (by decide)).2.2
     (by decide) (by decide),
   by decide⟩

def c5 : VInput :=
  { table := "t", parqAvailable := true, informixCount := some 0,
    parquetCount := some 5, informixCols := [], parquetCols := [],
    summaryOnly := true, parqFirst := none, nullCounts := [] }

/-- C5 counterexample: both row counts are known (source count 0, archive
count 5) and differ, so the claim as stated requires a signed-difference error
string, yet the source's truthiness guard records none: the status is
`"ROW MISMATCH"` but the error list is empty. -/
theorem row_mismatch_zero_cex :
    c5.informixCount = some 0 ∧ c5.parquetCount = some 5 ∧
    (validate_table c5).status = "ROW MISMATCH" ∧
    (validate_table c5).errors = [] := by
  decide

/-- C10: when the source row count is unknown (`None`) and the archive count
is known, or when both are known, differ, and either is zero, the row-count
match flag is false, the table is classified `"ROW MISMATCH"`, and no
signed-difference error string is recorded: the row-count check contributes no
error, so the error list is exactly the first-row check's contribution. -/
theorem row_count_unknown_or_zero (i : VInput) (hA : i.parqAvailable = true)
    (h : (i.informixCount = none ∧ ∃ b, i.parquetCount = some b) ∨
         (∃ a b, i.informixCount = some a ∧ i.parquetCount = some b ∧
           a ≠ b ∧ (a = 0 ∨ b = 0))) :
    (validate_table i).rowCountMatch = false ∧
    (validate_table i).status = "ROW MISMATCH" ∧
    rowCountErrors i.informixCount i.parquetCount = [] ∧
    (validate_table i).errors
      = firstRowErrors (firstRowCheckStr i.summaryOnly i.informixCols i.parqFirst) := by
  have hm : rowCountMatchB i.informixCount i.parquetCount = false := by
    rcases h with ⟨h1, b, h2⟩ | ⟨a, b, h1, h2, hab, hz⟩
    · rw [h1, h2]; rfl
    · rw [h1, h2]; simp [rowCountMatchB, hab]
  have he : rowCountErrors i.informixCount i.parquetCount = [] := by
    rcases h with ⟨h1, b, h2⟩ | ⟨a, b, h1, h2, hab, hz⟩
    · rw [h1, h2]; rfl
    · rw [h1, h2]; rcases hz with rfl | rfl <;> simp [rowCountErrors]
  refine ⟨?_, ?_, he, ?_⟩
  · simp [validate_table, hA, hm]
  · simp [validate_table, hA, hm, classify]
  · simp [validate_table, hA, he]

def w10 : VInput :=
  { table := "t", parqAvailable := true, informixCount := none,
    parquetCount := some 5, informixCols := [], parquetCols := [],
    summaryOnly := true, parqFirst := none, nullCounts := [] }

/-- C10 witness: unknown source count with known archive count 5 gives a false
match flag, status `"ROW MISMATCH"`, and an empty error list. -/
theorem row_count_unknown_or_zero_witness :
    (validate_table w10).rowCountMatch = false ∧
    (validate_table w10).status = "ROW MISMATCH" ∧
    rowCountErrors w10.informixCount w10.parquetCount = [] ∧
    (validate_table w10).errors
      = firstRowErrors (firstRowCheckStr w10.summaryOnly w10.informixCols w10.parqFirst) :=
  row_count_unknown_or_zero w10 rfl (Or.inl ⟨rfl, 5, rfl⟩)

/-- C9 (amended): for an archive whose total row count is known and nonzero,
a column is listed among the entirely-null columns exactly when its archive
null count equals the total row count (the list equals the filter of the
null-count report), and the null-column list never influences the status: the
source guards the audit with Python truthiness of the row count, so a known
zero row count empties the list instead (see the counterexample). -/
theorem null_density (i : VInput) (n : Nat) (hA : i.parqAvailable = true)
    (hp : i.parquetCount = some n) (hn : 0 < n) :
    (validate_table i).nullColumns
      = (i.nullCounts.filter (fun p => p.2 == n)).map Prod.fst ∧
    ∀ ncs, (validate_table { i with nullCounts := ncs }).status
      = (validate_table i).status := by
  constructor
  · simp only [validate_table, hA, if_true, nullColumnList, hp]
    by_cases hc : i.nullCounts = []
    · simp [hc]
    · simp [hc, Nat.pos_iff_ne_zero.mp hn]
  · intro ncs
    simp [validate_table, hA]

def w9 : VInput :=
  { table := "t", parqAvailable := true, informixCount := some 2,
    parquetCount := some 2, informixCols := ["a", "b"],
    parquetCols := ["a", "b"], summaryOnly := true, parqFirst := none,
    nullCounts := [("a", 2), ("b", 1)] }

/-- C9 witness: with 2 rows, column `a` (2 nulls) is listed and column `b`
(1 null) is not, and replacing the null-count report leaves the status
unchanged. -/
theorem null_density_witness :
    (validate_table w9).nullColumns
      = (w9.nullCounts.filter (fun p => p.2 == 2)).map Prod.fst ∧
    (validate_table { w9 with nullCounts := [] }).status
      = (validate_table w9).status :=
  ⟨(null_density w9 2 rfl rfl (by decide)).1,
   (null_density w9 2 rfl rfl (by decide)).2 []⟩

def c9 : VInput :=
  { table := "t", parqAvailable := true, informixCount := some 0,
    parquetCount := some 0, informixCols := ["a"], parquetCols := ["a"],
    summaryOnly := true, parqFirst := none, nullCounts := [("a", 0)] }

/-- C9 counterexample: an archive with a known total row count of 0 and one
column whose null count 0 equals that total.  The claim as stated requires the
column to be listed as entirely null, but the source's truthiness guard skips
the audit for a zero row count and lists nothing. -/
theorem null_density_zero_cex :
    (validate_table c9).rowCountParquet = some 0 ∧
    c9.nullCounts = [("a", 0)] ∧
    (validate_table c9).nullColumns = [] := by
  decide

/-- C3: when the first-row spot check runs (archive available, not skipped by
`--summary-only`, nonempty first row), the header-shift failure is flagged
exactly when the size of the intersection of the source column-name set with
the set of stringified non-null first-row values exceeds half the source
column count; and when it is flagged while the row-count, column-count and
name checks all pass, the status is `"WARNING"` rather than `"OK"`. -/
theorem header_shift (i : VInput) (row : List (String × Option String))
    (hA : i.parqAvailable = true) (hS : i.summaryOnly = false)
    (hF : i.parqFirst = some row) (hne : row ≠ []) :
    ((validate_table i).firstRowCheck = firstRowFailMsg ↔
      2 * overlapCount i.informixCols (row.filterMap Prod.snd)
        > i.informixCols.length) ∧
    ((validate_table i).firstRowCheck = firstRowFailMsg →
      (validate_table i).rowCountMatch = true →
      (validate_table i).colCountMatch = true →
      (validate_table i).colNamesMatch = true →
      (validate_table i).status = "WARNING") := by
  have hfr : (validate_table i).firstRowCheck
      = firstRowCheckStr i.summaryOnly i.informixCols i.parqFirst := by
    simp [validate_table, hA]
  have hrow : row.isEmpty = false := by
    simpa [List.isEmpty_iff] using hne
  constructor
  · rw [hfr]
    simp only [firstRowCheckStr, hS, hF, Bool.false_eq_true, if_false, hrow]
    by_cases hc : 2 * overlapCount i.informixCols (row.filterMap Prod.snd)
        > i.informixCols.length
    · simp [hc]
    · have hOK : ("OK" : String) ≠ firstRowFailMsg := by decide
      simp [hc, hOK]
  · intro hfail hr hc hn
    have hr' : rowCountMatchB i.informixCount i.parquetCount = true := by
      simpa [validate_table, hA] using hr
    have hc' : (i.informixCols.length == i.parquetCols.length) = true := by
      simpa [validate_table, hA] using hc
    have hn' : colNamesMatchB i.informixCols i.parquetCols = true := by
      simpa [validate_table, hA] using hn
    have hf' : firstRowCheckStr i.summaryOnly i.informixCols i.parqFirst
        = firstRowFailMsg := by
      rw [← hfr]; exact hfail
    simp only [validate_table, hA, if_true, classify, hr', hc', hn', hf']
    decide

def w3 : VInput :=
  { table := "t", parqAvailable := true, informixCount := some 2,
    parquetCount := some 2, informixCols := ["a", "b"],
    parquetCols := ["a", "b"], summaryOnly := false,
    parqFirst := some [("a", some "a"), ("b", some "b")], nullCounts := [] }

/-- C3 witness: a synthetic archive whose first row's values equal both column
names (overlap 2 of 2 columns, exceeding half) is flagged, and since the
row-count, column-count and name checks all pass, the status is `"WARNING"`. -/
theorem header_shift_witness :
    (validate_table w3).firstRowCheck = firstRowFailMsg ∧
    (validate_table w3).status = "WARNING" := by
  have h := header_shift w3 [("a", some "a"), ("b", some "b")] rfl rfl rfl
    (by decide)
  exact ⟨h.1.mpr (by decide),
    h.2 (h.1.mpr (by decide)) (by decide) (by decide) (by decide)⟩

/-! ## Theorems: record recovery engine claims -/

/-- C4: for the schema `["id","name","notes"]` (expected column count 3),
repairing the raw stream whose first physical line is `1|Alice|Hello` ending
in a backslash before the line break and whose second physical line is
`world|` yields exactly one record `1|Alice|Hello world` with 3 fields: the
continuation is replaced by a single space and the trailing pipe stripped. -/
theorem continuation_rejoin_concrete :
    fixUnlRecords ("1|Alice|Hello\\\nworld|\n".toList) 3
      = ["1|Alice|Hello world".toList] ∧
    fieldCount ("1|Alice|Hello world".toList) = 3 ∧
    fix_unl ("1|Alice|Hello\\\nworld|\n".toList) 3
      = "1|Alice|Hello world\n".toList := by
  decide

/-- C1 counterexample: with expected column count 2, the single input line
`a|b|c|` (three fields after the trailing-pipe strip) is carried in the
accumulator to the end of input and flushed as-is, so the output contains a
record with 3 delimiter-separated fields — more than `expectedColumnCount`,
contradicting the claim that no emitted record ever exceeds the count. -/
theorem output_field_count_cex :
    fixUnlRecords ("a|b|c|\n".toList) 2 = ["a|b|c".toList] ∧
    fieldCount ("a|b|c".toList) = 3 := by
  decide

/-- C1 (amended): every record in the output of the repair operation has at
least `expectedColumnCount` delimiter-separated fields — records with fewer
fields are padded up to exactly the count — but a record whose field count
already exceeds `expectedColumnCount` is emitted as-is (the deliberate
best-effort policy of §7/§9), so output field counts can exceed the count. -/
theorem output_field_count_ge (content : List Char) (expected : Nat)
    (r : List Char) (hr : r ∈ fixUnlRecords content expected) :
    expected ≤ fieldCount r := by
  rcases List.mem_map.mp hr with ⟨s, _, rfl⟩
  unfold padRow fieldCount
  by_cases h : s.count pipeC + 1 < expected
  · simp only [h, if_true, List.count_append, List.count_replicate_self]
    omega
  · simp only [h, if_false]
    omega

/-- C1 witness: the padded record `a|` belongs to the repaired output of the
one-field line `a` under expected count 2, and its field count is at least 2. -/
theorem output_field_count_ge_witness :
    "a|".toList ∈ fixUnlRecords ("a|\n".toList) 2 ∧
    2 ≤ fieldCount ("a|".toList) :=
  ⟨by decide, output_field_count_ge ("a|\n".toList) 2 ("a|".toList) (by decide)⟩

/-! ### Lemmas about `splitPipe` -/

lemma splitPipe_ne_nil (l : List Char) : splitPipe l ≠ [] := by
  cases l with
  | nil => simp [splitPipe]
  | cons c rest =>
    unfold splitPipe
    by_cases hc : c = pipeC
    · simp [hc]
    · simp only [hc, if_false]
      cases splitPipe rest <;> simp

lemma length_splitPipe (l : List Char) :
    (splitPipe l).length = l.count pipeC + 1 := by
  induction l with
  | nil => simp [splitPipe]
  | cons c rest ih =>
    unfold splitPipe
    by_cases hc : c = pipeC
    · simp [hc, List.count_cons, ih]
    · simp only [hc, if_false]
      rcases hl : splitPipe rest with _ | ⟨x, xs⟩
      · exact absurd hl (splitPipe_ne_nil rest)
      · rw [hl] at ih
        simp only [List.length_cons] at ih ⊢
        simp [List.count_cons, hc, ← ih]

lemma splitPipe_concat_pipe (xs : List Char) :
    splitPipe (xs ++ [pipeC]) = splitPipe xs ++ [[]] := by
  induction xs with
  | nil => simp [splitPipe]
  | cons c rest ih =>
    by_cases hc : c = pipeC
    · simp [splitPipe, hc, ih]
    · simp only [List.cons_append]
      unfold splitPipe
      simp only [hc, if_false, ih]
      rcases hl : splitPipe rest with _ | ⟨x, xs'⟩
      · exact absurd hl (splitPipe_ne_nil rest)
      · simp

lemma splitPipe_append_replicate (k : Nat) (xs : List Char) :
    splitPipe (xs ++ List.replicate k pipeC)
      = splitPipe xs ++ List.replicate k [] := by
  induction k with
  | zero => simp
  | succ n ih =>
    rw [List.replicate_succ', ← List.append_assoc, splitPipe_concat_pipe, ih,
      List.replicate_succ', List.append_assoc]

/-- C6: for every record emitted by the reassembly loop with field count `k`
strictly below `expectedColumnCount`, the padded record placed in the final
output has exactly `expectedColumnCount` fields whose first `k` fields are the
emitted record's fields unchanged, the appended fields being empty; and a
record whose field count is not below the expected count is never truncated —
padding leaves it untouched. -/
theorem padding_never_truncates (content : List Char) (expected : Nat)
    (r : List Char)
    (hr : r ∈ reassemble expected ((splitNl (fixEscapes content)).map stripTrail)) :
    (fieldCount r < expected →
      splitPipe (padRow expected r)
        = splitPipe r ++ List.replicate (expected - fieldCount r) [] ∧
      (splitPipe (padRow expected r)).length = expected ∧
      padRow expected r ∈ fixUnlRecords content expected) ∧
    (expected ≤ fieldCount r → padRow expected r = r) := by
  constructor
  · intro hlt
    refine ⟨?_, ?_, List.mem_map_of_mem (padRow expected) hr⟩
    · unfold padRow
      simp only [fieldCount] at hlt
      simp only [hlt, if_true]
      exact splitPipe_append_replicate _ r
    · unfold padRow
      simp only [fieldCount] at hlt
      simp only [hlt, if_true]
      rw [splitPipe_append_replicate, List.length_append, length_splitPipe,
        List.length_replicate]
      omega
  · intro hge
    unfold padRow
    simp only [fieldCount] at hge
    simp only [Nat.not_lt.mpr hge, if_false]

/-- C6 witness: the one-field line `a` under expected count 3 is emitted with
field count 1 < 3; its padded form has exactly 3 fields, the first being `a`
and the appended two empty. -/
theorem padding_never_truncates_witness :
    fieldCount ("a".toList) < 3 ∧
    splitPipe (padRow 3 ("a".toList))
      = splitPipe ("a".toList) ++ List.replicate 2 [] ∧
    (splitPipe (padRow 3 ("a".toList))).length = 3 ∧
    padRow 3 ("a".toList) ∈ fixUnlRecords ("a|\n".toList) 3 := by
  have h := (padding_never_truncates ("a|\n".toList) 3 ("a".toList)
    (by decide)).1 (by decide)
  exact ⟨by decide, h.1, h.2.1, h.2.2⟩


/-! ### Lemmas for the termination/resource claim -/

/-- The number of rows an intermediate reassembly state accounts for: emitted
rows plus one for a nonempty accumulator. -/
def stMeasure (st : List (List Char) × List Char) : Nat :=
  st.1.length + (if st.2 = [] then 0 else 1)

lemma reasmStep_measure (expected : Nat) (st : List (List Char) × List Char)
    (line : List Char) :
    stMeasure (reasmStep expected st line)
      ≤ stMeasure st + (if line = [] then 0 else 1) := by
  obtain ⟨acc, cur⟩ := st
  simp only [reasmStep, stMeasure]
  split_ifs <;> simp_all [List.length_append]

lemma foldl_reasm_measure (expected : Nat) (ls : List (List Char)) :
    ∀ st, stMeasure (ls.foldl (reasmStep expected) st)
      ≤ stMeasure st + (ls.filter (fun l => !l.isEmpty)).length := by
  induction ls with
  | nil => intro st; simp
  | cons l ls ih =>
    intro st
    have h1 := reasmStep_measure expected st l
    have h2 := ih (reasmStep expected st l)
    rw [List.foldl_cons]
    by_cases hl : l = []
    · subst hl
      rw [List.filter_cons, if_neg (by simp)]
      have he : reasmStep expected st [] = st := by simp [reasmStep]
      rw [he] at h2 ⊢
      omega
    · have hp : (!l.isEmpty) = true := by simp [List.isEmpty_iff, hl]
      rw [List.filter_cons, if_pos hp, List.length_cons]
      simp only [hl, if_false] at h1
      omega

lemma reassemble_length_le (expected : Nat) (ls : List (List Char)) :
    (reassemble expected ls).length
      ≤ (ls.filter (fun l => !l.isEmpty)).length := by
  have h := foldl_reasm_measure expected ls ([], [])
  rcases hst : ls.foldl (reasmStep expected) ([], []) with ⟨acc, cur⟩
  rw [hst] at h
  simp only [reassemble, hst, stMeasure] at h ⊢
  by_cases hc : cur = [] <;> simp only [hc, if_true, if_false] at h ⊢ <;>
    simp_all [List.length_append]

/-- C8: for every input byte stream and expected column count, the repair
operation is a total function (defined by structural recursion, hence
terminating, and raising no error); its best-effort output is bounded: it
emits at most one record per nonempty cleaned line, and the repaired text is
always the newline-join of the repaired records plus a final newline. -/
theorem fix_unl_total_bounded (content : List Char) (expected : Nat) :
    (fixUnlRecords content expected).length
      ≤ (((splitNl (fixEscapes content)).map stripTrail).filter
          (fun l => !l.isEmpty)).length ∧
    fix_unl content expected = joinNl (fixUnlRecords content expected) ++ [nlC] := by
  constructor
  · rw [fixUnlRecords, List.length_map]
    exact reassemble_length_le expected _
  · rfl

/-! ### Lemmas for the escape round-trip claim -/

lemma pipe_ne_bs : pipeC ≠ bsC := by decide

lemma nul_ne_bs : nulC ≠ bsC := by decide

lemma sub_ne_bs : pipeSub ≠ bsC := by decide

lemma sub_ne_nul : pipeSub ≠ nulC := by decide

lemma sub_ne_pipe : pipeSub ≠ pipeC := by decide

lemma sub_ne_nl : pipeSub ≠ nlC := by decide

lemma esc2_cons₂ (a b r c d : Char) (l : List Char) :
    esc2 a b r (c :: d :: l)
      = if c = a ∧ d = b then r :: esc2 a b r l
        else c :: esc2 a b r (d :: l) := rfl

lemma esc2_cons_ne (a b r c : Char) (l : List Char) (h : c ≠ a) :
    esc2 a b r (c :: l) = c :: esc2 a b r l := by
  cases l with
  | nil => rfl
  | cons d rest => simp [esc2_cons₂, h]

lemma esc2_append_not_mem (a b r : Char) (l t : List Char) (h : a ∉ l) :
    esc2 a b r (l ++ t) = l ++ esc2 a b r t := by
  induction l with
  | nil => rfl
  | cons c l ih =>
    simp only [List.mem_cons, not_or] at h
    rw [List.cons_append, esc2_cons_ne a b r c _ (fun hc => h.1 hc.symm),
      ih h.2, List.cons_append]

/-- The text `escField f` becomes after step 1 of `fix_unl`: each original
character contributes `st1c` of itself. -/
def st1 : List Char → List Char
  | [] => []
  | c :: rest => st1c c ++ st1 rest

lemma esc2_bs_escField (f t : List Char) :
    esc2 bsC bsC nulC (escField f ++ t) = st1 f ++ esc2 bsC bsC nulC t := by
  induction f with
  | nil => rfl
  | cons c f ih =>
    by_cases hb : c = bsC
    · subst hb
      simp only [escField, if_pos rfl, if_true, List.cons_append, st1, st1c]
      rw [esc2_cons₂, if_pos ⟨rfl, rfl⟩, ih]
      rfl
    · by_cases hp : c = pipeC
      · subst hp
        simp only [escField, if_neg hb, if_pos rfl, if_true,
          List.cons_append, st1, st1c]
        rw [esc2_cons₂, if_neg (fun h => pipe_ne_bs h.2),
          esc2_cons_ne _ _ _ _ _ pipe_ne_bs, ih]
        rfl
      · simp only [escField, if_neg hb, if_neg hp, List.cons_append, st1, st1c]
        rw [esc2_cons_ne _ _ _ _ _ hb, ih]
        rfl

lemma esc2_pipe_st1 (f t : List Char) :
    esc2 bsC pipeC pipeSub (st1 f ++ t)
      = f.map protc ++ esc2 bsC pipeC pipeSub t := by
  induction f with
  | nil => rfl
  | cons c f ih =>
    by_cases hb : c = bsC
    · subst hb
      simp only [st1, st1c, if_pos rfl, if_true, List.cons_append,
        List.nil_append, List.map_cons, protc]
      rw [esc2_cons_ne _ _ _ _ _ nul_ne_bs, ih]
    · by_cases hp : c = pipeC
      · subst hp
        simp only [st1, st1c, if_neg hb, if_pos rfl, if_true,
          List.cons_append, List.nil_append, List.map_cons, protc]
        rw [esc2_cons₂, if_pos ⟨rfl, rfl⟩, ih]
      · simp only [st1, st1c, if_neg hb, if_neg hp, List.cons_append,
          List.nil_append, List.map_cons, protc]
        rw [esc2_cons_ne _ _ _ _ _ hb, ih]

lemma protc_ne_bs (c : Char) : protc c ≠ bsC := by
  unfold protc
  split_ifs with h1 h2
  · exact nul_ne_bs
  · exact sub_ne_bs
  · exact h1

lemma esc2_nl_prot (f t : List Char) :
    esc2 bsC nlC ' ' (f.map protc ++ t) = f.map protc ++ esc2 bsC nlC ' ' t :=
  esc2_append_not_mem _ _ _ _ _ (by
    intro hm
    rcases List.mem_map.mp hm with ⟨c, _, hc⟩
    exact protc_ne_bs c hc)

lemma unnul_map_prot (f : List Char) (h : nulC ∉ f) :
    (f.map protc).map (fun c => if c = nulC then bsC else c)
      = f.map subPipe := by
  induction f with
  | nil => rfl
  | cons c f ih =>
    simp only [List.mem_cons, not_or] at h
    simp only [List.map_cons, ih h.2]
    congr 1
    by_cases hb : c = bsC
    · subst hb
      decide
    · by_cases hp : c = pipeC
      · subst hp
        decide
      · have hcn : c ≠ nulC := fun hc => h.1 hc.symm
        simp [protc, subPipe, hb, hp, hcn]

lemma fixEscapes_escField (f t : List Char) (h : nulC ∉ f) :
    fixEscapes (escField f ++ t) = f.map subPipe ++ fixEscapes t := by
  unfold fixEscapes
  rw [esc2_bs_escField, esc2_pipe_st1, esc2_nl_prot, List.map_append,
    unnul_map_prot f h]

lemma splitNl_ne_nil (l : List Char) : splitNl l ≠ [] := by
  cases l with
  | nil => simp [splitNl]
  | cons c rest =>
    unfold splitNl
    by_cases hc : c = nlC
    · simp [hc]
    · simp only [hc, if_false]
      cases splitNl rest <;> simp

lemma splitNl_cons_ne (c : Char) (l : List Char) (h : c ≠ nlC) :
    splitNl (c :: l) = (c :: (splitNl l).headI) :: (splitNl l).tail := by
  rcases hl : splitNl l with _ | ⟨x, xs⟩
  · exact absurd hl (splitNl_ne_nil l)
  · conv_lhs => rw [splitNl]
    simp [h, hl]

lemma splitNl_append_nl (xs ys : List Char) (h : nlC ∉ xs) :
    splitNl (xs ++ nlC :: ys) = xs :: splitNl ys := by
  induction xs with
  | nil => simp [splitNl]
  | cons c xs ih =>
    simp only [List.mem_cons, not_or] at h
    have hc : c ≠ nlC := fun hc => h.1 hc.symm
    rw [List.cons_append, splitNl_cons_ne c _ hc, ih h.2]
    simp

lemma splitPipe_cons_ne (c : Char) (l : List Char) (h : c ≠ pipeC) :
    splitPipe (c :: l) = (c :: (splitPipe l).headI) :: (splitPipe l).tail := by
  rcases hl : splitPipe l with _ | ⟨x, xs⟩
  · exact absurd hl (splitPipe_ne_nil l)
  · conv_lhs => rw [splitPipe]
    simp [h, hl]

lemma splitPipe_of_not_mem (l : List Char) (h : pipeC ∉ l) :
    splitPipe l = [l] := by
  induction l with
  | nil => rfl
  | cons c l ih =>
    simp only [List.mem_cons, not_or] at h
    have hc : c ≠ pipeC := fun hc => h.1 hc.symm
    rw [splitPipe_cons_ne c _ hc, ih h.2]
    simp

lemma subPipe_ne_pipe (c : Char) : subPipe c ≠ pipeC := by
  unfold subPipe
  split_ifs with h1
  · exact sub_ne_pipe
  · exact h1

lemma subPipe_eq_nl {c : Char} (h : subPipe c = nlC) : c = nlC := by
  unfold subPipe at h
  split_ifs at h with h1
  · exact absurd h sub_ne_nl
  · exact h

/-- C2 (amended): for any nonempty field value containing literal backslashes
and literal pipes and no embedded newline (nor the NUL sentinel byte, which
the spec requires to be absent from the data), repairing the exporter's
escaped line and splitting on the delimiter yields exactly one field equal to
the original with each literal pipe replaced by the placeholder byte `'\xA6'`:
escaped backslashes are restored exactly, but the pipe placeholder is never
restored to a pipe (see the counterexample), so only pipe-free field values
round-trip byte-identically. -/
theorem escape_round_trip (f : List Char) (h0 : f ≠ []) (h1 : nulC ∉ f)
    (h2 : nlC ∉ f) :
    fixUnlRecords (escField f ++ [pipeC, nlC]) 1 = [f.map subPipe] ∧
    splitPipe (f.map subPipe) = [f.map subPipe] ∧
    (pipeC ∉ f → f.map subPipe = f) := by
  have hpipe : pipeC ∉ f.map subPipe := by
    intro hm
    rcases List.mem_map.mp hm with ⟨c, _, hc⟩
    exact subPipe_ne_pipe c hc
  have hnl : nlC ∉ f.map subPipe := by
    intro hm
    rcases List.mem_map.mp hm with ⟨c, hcf, hc⟩
    rw [subPipe_eq_nl hc] at hcf
    exact h2 hcf
  have hcount : (f.map subPipe).count pipeC = 0 := List.count_eq_zero.mpr hpipe
  have hne : f.map subPipe ≠ [] := by
    simp only [ne_eq, List.map_eq_nil_iff]
    exact h0
  have hfe : fixEscapes (escField f ++ [pipeC, nlC])
      = f.map subPipe ++ [pipeC, nlC] := by
    rw [fixEscapes_escField f _ h1]
    congr 1
  have hsplit : splitNl (fixEscapes (escField f ++ [pipeC, nlC]))
      = [f.map subPipe ++ [pipeC], []] := by
    rw [hfe]
    have hassoc : f.map subPipe ++ [pipeC, nlC]
        = (f.map subPipe ++ [pipeC]) ++ nlC :: [] := by simp
    rw [hassoc, splitNl_append_nl _ _ (by
      intro hm
      rcases List.mem_append.mp hm with hm | hm
      · exact hnl hm
      · simp only [List.mem_singleton] at hm
        exact absurd hm (by decide))]
    rfl
  have hstrip : stripTrail (f.map subPipe ++ [pipeC]) = f.map subPipe := by
    unfold stripTrail
    rw [List.getLast?_concat, if_pos rfl, List.dropLast_concat]
  have hreasm : reassemble 1 [f.map subPipe, []] = [f.map subPipe] := by
    simp [reassemble, reasmStep, hne, hcount]
  refine ⟨?_, splitPipe_of_not_mem _ hpipe, ?_⟩
  · rw [fixUnlRecords, hsplit]
    simp only [List.map_cons, List.map_nil, hstrip]
    rw [show stripTrail [] = [] from rfl, hreasm]
    simp only [List.map_cons, List.map_nil]
    rw [show padRow 1 (f.map subPipe) = f.map subPipe from by
      unfold padRow
      rw [hcount]
      simp]
  · intro hp
    have hcg : ∀ c ∈ f, subPipe c = id c := by
      intro c hcf
      by_cases hc : c = pipeC
      · exact absurd (hc ▸ hcf) hp
      · simp [subPipe, hc]
    rw [List.map_congr_left hcg, List.map_id]

/-- C2 counterexample: the field value consisting of a single literal pipe is
exported as backslash-pipe; repair-then-split yields the single field
`['\xA6']` (the internal placeholder, left in the final output), not the
original `['|']` — the placeholder byte is not restored before final output,
so the exact original field value is not recovered. -/
theorem escape_round_trip_cex :
    fixUnlRecords (escField [pipeC] ++ [pipeC, nlC]) 1 = [[pipeSub]] ∧
    pipeSub ≠ pipeC := by
  decide

/-- C2 witness: the backslash-containing, pipe-free field value `a\b`
round-trips exactly through repair-then-split. -/
theorem escape_round_trip_witness :
    ("a\\b".toList ≠ [] ∧ nulC ∉ "a\\b".toList ∧ nlC ∉ "a\\b".toList) ∧
    fixUnlRecords (escField ("a\\b".toList) ++ [pipeC, nlC]) 1
      = ["a\\b".toList.map subPipe] ∧
    ("a\\b".toList.map subPipe = "a\\b".toList) :=
  ⟨⟨by decide, by decide, by decide⟩,
   (escape_round_trip ("a\\b".toList) (by decide) (by decide) (by decide)).1,
   (escape_round_trip ("a\\b".toList) (by decide) (by decide) (by decide)).2.2
     (by decide)⟩
